import Mathlib

/-!
Shallow embedding of the cf-logs-loki-uploader processing pipeline
(package `parser`, files `parser.go`, `models/models.go`, `models/options.go`).

Strings coming from the object store are modelled as Lean `String`s; the
Go map `models.LogEntry` (`map[string]string`) is modelled as an
association list in which a later insert shadows an earlier one (inserts
prepend, lookup takes the first hit), which reproduces Go's last-write-wins
map semantics.  Network effects (S3 list/get/delete, the Loki sink) are
modelled as explicit inputs: a fetch outcome per key, a sink oracle saying
which `Add`/`Flush` calls fail, and a delete-failure oracle.
-/

namespace CFShip

/-- Splits a character list at every character satisfying `p`, keeping the
empty segments.  This is the splitting loop underlying Go's
`strings.Split` (with a one-character separator) and, after dropping empty
segments, `strings.Fields`. -/
def splitP (p : Char → Bool) : List Char → List (List Char)
  | [] => [[]]
  | c :: rest =>
    match splitP p rest with
    | [] => [[c]]
    | h :: t => if p c then [] :: h :: t else (c :: h) :: t

/-- Go `strings.Split(s, sep)` for a one-character separator `sep`. -/
def goSplit (sep : Char) (s : String) : List String :=
  (splitP (fun c => c = sep) s.toList).map (fun l => ⟨l⟩)

/-- Go `strings.Fields(s)`: whitespace-separated tokens, empties dropped. -/
def goFields (s : String) : List String :=
  ((splitP (fun c => c.isWhitespace) s.toList).filter (fun l => !l.isEmpty)).map
    (fun l => ⟨l⟩)

/-- Go `strings.HasPrefix(s, pre)`. -/
def goHasPrefix (s pre : String) : Bool :=
  pre.toList.isPrefixOf s.toList

/-- `models.LogEntry` (`map[string]string`): association list, most recent
insert first. -/
abbrev LogEntry := List (String × String)

/-- Lookup in the association-list model of a Go map: first (most recently
inserted) binding wins. -/
def entryLookup : LogEntry → String → Option String
  | [], _ => none
  | (k, v) :: rest, key => if k = key then some v else entryLookup rest key

/-- The key set of the association-list model of a Go map. -/
def entryKeys (m : LogEntry) : List String := m.map Prod.fst

/-- The loop body of `parseDataLine`: `for i, name := range headerFields
{ entry[name] = fields[i] }`.  Each insert prepends, so for duplicated
names the later (larger-index) write wins on lookup, as in Go. -/
def buildEntry (names fields : List String) : LogEntry :=
  (names.zip fields).foldl (fun m kv => kv :: m) []

/-- `parseDataLine` (parser.go:28-40): tokenize the line on whitespace,
reject a token count different from the header length, otherwise build the
map from header names to tokens. -/
def parseDataLine (line : String) (headerFields : List String) :
    Except String LogEntry :=
  let fields := goFields line
  if fields.length ≠ headerFields.length then
    Except.error ("field count mismatch: expected " ++
      toString headerFields.length ++ ", got " ++ toString fields.length)
  else
    Except.ok (buildEntry headerFields fields)

/-- `models.Options` (models/options.go); `time.Duration` as `Nat`,
the `Labels` map as an association list with pairwise-distinct keys. -/
structure Options where
  BucketName : String
  WaitInterval : Nat
  Format : String
  LokiURL : String
  LokiUser : String
  LokiPassword : String
  ClusterName : String
  Labels : List (String × String)
  Workers : Nat
  Port : Nat
deriving DecidableEq

/-- The label construction of `parseFile` (parser.go:115-125): the map
literal `{namespace, cloudfront}`, then the `cluster` and `index` inserts,
then the static `opts.Labels` entries, each insert shadowing earlier
bindings of the same key. -/
def buildLabels (opts : Options) (ns cf : String) : List (String × String) :=
  opts.Labels.foldl (fun m kv => kv :: m)
    (("index", opts.ClusterName ++ "-" ++ ns) ::
     ("cluster", opts.ClusterName) ::
     ("cloudfront", cf) ::
     ("namespace", ns) :: [])

/-- Labels for an object key: `parts := strings.Split(fn, "/")`;
namespace is `parts[0]`, cloudfront object name is `parts[1]`
(parser.go:111-125). -/
def labelsForKey (opts : Options) (fn : String) : List (String × String) :=
  buildLabels opts ((goSplit '/' fn).getD 0 "") ((goSplit '/' fn).getD 1 "")

/-- Sink behaviour oracle: whether the n-th `Batch.Add` of a file fails,
and whether the final `Batch.Flush` fails. -/
structure SinkOracle where
  addFails : Nat → Bool
  flushFails : Bool

/-- A sink on which every `Add` and the `Flush` succeed. -/
def perfectSink : SinkOracle := ⟨fun _ => false, false⟩

/-- The error classes `parseFile` can return. -/
inductive PErrorKind where
  | fetch (msg : String)
  | gunzip
  | parseLine (msg : String)
  | sinkAdd
  | scanRead (msg : String)
  | sinkFlush
deriving DecidableEq

/-- Outcome of a `parseFile` call: normal success, a Go runtime panic
(out-of-range slice index), or an error return. -/
inductive PResult where
  | ok
  | panicked
  | failed (k : PErrorKind)
deriving DecidableEq

/-- Observable effects of one `parseFile` call: its return value, the
labels the Loki batch was opened with (`none` when `loki.NewBatch` was
never reached), the records added to the batch in order, and whether the
batch was flushed. -/
structure ParseOutcome where
  result : PResult
  batchLabels : Option (List (String × String))
  added : List LogEntry
  flushed : Bool
deriving DecidableEq

/-- Outcome of the `GetObject` fetch plus the gzip/scanner plumbing:
the key is gone (`NoSuchKey`), some other fetch error, or content — a
gzip-validity bit, the decompressed lines the scanner delivers, and an
optional scanner read error reported after the last line. -/
inductive FetchResult where
  | noSuchKey
  | otherError (msg : String)
  | content (gzipValid : Bool) (lines : List String) (readErr : Option String)

/-- The scanner loop of `parseFile` (parser.go:153-190).  Returns the
records added to the batch (in order) and `ok` or the aborting error.
`hdr` is the current `w3cLog.HeaderFields`, `n` counts the `Add` calls
made so far (indexing into the sink oracle). -/
def runScan (sink : SinkOracle) (hdr : List String) (n : Nat) :
    List String → List LogEntry × Except PErrorKind Unit
  | [] => ([], Except.ok ())
  | line :: rest =>
    if goHasPrefix line "#Fields:" then
      runScan sink ((goFields line).drop 1) n rest
    else if goHasPrefix line "#" || hdr.isEmpty then
      runScan sink hdr n rest
    else
      match parseDataLine line hdr with
      | Except.error msg =>
        ([], Except.error (PErrorKind.parseLine ("error parsing data line: " ++ msg)))
      | Except.ok entry =>
        if sink.addFails n then ([], Except.error PErrorKind.sinkAdd)
        else
          let r := runScan sink hdr (n + 1) rest
          (entry :: r.1, r.2)

/-- Body of `parseFile` after the key split has succeeded
(parser.go:115-203): open the batch, fetch, gunzip, scan, flush. -/
def parseFileBody (opts : Options) (fn : String) (fetch : FetchResult)
    (sink : SinkOracle) : ParseOutcome :=
  let labels := some (labelsForKey opts fn)
  match fetch with
  | FetchResult.noSuchKey =>
    { result := PResult.ok, batchLabels := labels, added := [], flushed := false }
  | FetchResult.otherError msg =>
    { result := PResult.failed (PErrorKind.fetch
        ("failed to get object " ++ fn ++ ": " ++ msg)),
      batchLabels := labels, added := [], flushed := false }
  | FetchResult.content gzipValid lines readErr =>
    if !gzipValid then
      { result := PResult.failed PErrorKind.gunzip,
        batchLabels := labels, added := [], flushed := false }
    else
      match runScan sink [] 0 lines with
      | (entries, Except.error k) =>
        { result := PResult.failed k, batchLabels := labels,
          added := entries, flushed := false }
      | (entries, Except.ok ()) =>
        match readErr with
        | some m =>
          { result := PResult.failed (PErrorKind.scanRead m),
            batchLabels := labels, added := entries, flushed := false }
        | none =>
          if sink.flushFails then
            { result := PResult.failed PErrorKind.sinkFlush,
              batchLabels := labels, added := entries, flushed := false }
          else
            { result := PResult.ok, batchLabels := labels,
              added := entries, flushed := true }

/-- `parseFile` (parser.go:108-204).  `strings.Split` always returns at
least one segment, so `parts[0]` is safe; `parts[1]` panics (slice index
out of range) whenever the split has fewer than two segments, which the
`panicked` outcome models. -/
def parseFile (opts : Options) (fn : String) (fetch : FetchResult)
    (sink : SinkOracle) : ParseOutcome :=
  if (goSplit '/' fn).length < 2 then
    { result := PResult.panicked, batchLabels := none, added := [], flushed := false }
  else
    parseFileBody opts fn fetch sink

/-- The data lines of a file together with the header fields in effect at
each, following exactly the classification of the scanner loop
(parser.go:156-167): a `#Fields:` directive replaces the header with the
tokens after the first; other `#`-lines and lines before a header are
skipped; everything else is a data line. -/
def dataLinesWith (hdr : List String) : List String → List (List String × String)
  | [] => []
  | line :: rest =>
    if goHasPrefix line "#Fields:" then
      dataLinesWith ((goFields line).drop 1) rest
    else if goHasPrefix line "#" || hdr.isEmpty then
      dataLinesWith hdr rest
    else
      (hdr, line) :: dataLinesWith hdr rest

/-- Whether a data line's token count matches its governing header length. -/
def lineOKb (p : List String × String) : Bool :=
  (goFields p.2).length == p.1.length

/-- A file is well formed when every data line's whitespace-token count
equals the length of the header fields in effect at that line. -/
def wellFormedFile (lines : List String) : Prop :=
  ∀ p ∈ dataLinesWith [] lines, lineOKb p = true

instance (lines : List String) : Decidable (wellFormedFile lines) := by
  unfold wellFormedFile; infer_instance

/-- Environment a worker runs against: the fetch outcome of each key, the
sink behaviour for each key's batch, and whether the delete of each key
fails. -/
structure Env where
  fetchOf : String → FetchResult
  sinkOf : String → SinkOracle
  deleteFails : String → Bool

/-- Result of a worker loop: queue drained, an error return, or a panic
propagated out of `parseFile`. -/
inductive WResult where
  | done
  | errored (k : PErrorKind)
  | panicked
deriving DecidableEq

/-- The worker loop `Worker` (parser.go:87-106) over the sequence of keys
it dequeues.  Returns the delete requests issued — each key together with
whether its delete succeeded — and the loop's result.  A `parseFile`
error is returned at once (the key is not deleted); a failed delete is
only logged, the loop continues with the next key. -/
def Worker (opts : Options) (env : Env) : List String → List (String × Bool) × WResult
  | [] => ([], WResult.done)
  | key :: rest =>
    match (parseFile opts key (env.fetchOf key) (env.sinkOf key)).result with
    | PResult.ok =>
      let r := Worker opts env rest
      ((key, !env.deleteFails key) :: r.1, r.2)
    | PResult.failed e => ([], WResult.errored e)
    | PResult.panicked => ([], WResult.panicked)

/-- Whether `parseFile` succeeds for a key under a fetch and sink
environment — the condition under which the worker issues a delete. -/
def shipOK (opts : Options) (env : Env) (key : String) : Bool :=
  decide ((parseFile opts key (env.fetchOf key) (env.sinkOf key)).result = PResult.ok)

/-- The `ListObjectsV2` request parameters `Scan` fills in
(parser.go:64-68). -/
structure ListObjectsInput where
  bucket : String
  maxKeys : Nat
deriving DecidableEq

/-- The listing request issued by `Scan`: the configured bucket and a page
size of 100, with no pagination. -/
def scanInput (opts : Options) : ListObjectsInput :=
  { bucket := opts.BucketName, maxKeys := 100 }

/-- The enqueue loop of `Scan` (parser.go:74-80): each listed object's key
is a nullable pointer (`none` = nil); an object is skipped when its key is
nil or when `s.stop` reads true at that iteration (`stopAt i`), and
enqueued otherwise.  `i` is the index of the first remaining object. -/
def scanEnqueueAux (stopAt : Nat → Bool) (i : Nat) :
    List (Option String) → List String
  | [] => []
  | none :: rest => scanEnqueueAux stopAt (i + 1) rest
  | some k :: rest =>
    if stopAt i then scanEnqueueAux stopAt (i + 1) rest
    else k :: scanEnqueueAux stopAt (i + 1) rest

/-- The keys `Scan` enqueues from a listing. -/
def scanEnqueue (stopAt : Nat → Bool) (objs : List (Option String)) : List String :=
  scanEnqueueAux stopAt 0 objs

/-- `Scan` (parser.go:61-85): one `ListObjectsV2` call; on error the error
is returned and nothing is enqueued; otherwise every listed object with a
non-nil key is enqueued while the stop flag reads false. -/
def Scan (stopAt : Nat → Bool) (listing : Except String (List (Option String))) :
    Except String Unit × List String :=
  match listing with
  | Except.error e => (Except.error e, [])
  | Except.ok objs => (Except.ok (), scanEnqueue stopAt objs)

/-- Pipeline state visible to `Stop` and `Metrics`: the `stop` flag, the
queue contents (enqueued-but-not-dequeued keys), whether the queue channel
has been closed, and how many `close` calls were executed (a second
`close` of a Go channel would panic, so this count staying at one is the
no-double-close property). -/
structure PState where
  stopped : Bool
  queue : List String
  closed : Bool
  closeCount : Nat
deriving DecidableEq

/-- `Stop` (parser.go:53-59): return immediately when already stopped,
otherwise set the flag and close the queue. -/
def Stop (s : PState) : PState :=
  if s.stopped then s
  else { s with stopped := true, closed := true, closeCount := s.closeCount + 1 }

/-- An HTTP response of the metrics handler. -/
structure MetricsResponse where
  contentType : String
  body : String
deriving DecidableEq

/-- `Metrics` (parser.go:206-211): serve the queue length as one plain-text
line, leaving the state untouched. -/
def Metrics (s : PState) : MetricsResponse × PState :=
  ({ contentType := "text/plain; charset=utf-8",
     body := "cloudfront_logs_shipper_queue_length " ++
       toString s.queue.length ++ "\n" }, s)

/-- A concrete options record for ground instances. -/
def opts0 : Options :=
  { BucketName := "bucket", WaitInterval := 0, Format := "w3c",
    LokiURL := "http://loki", LokiUser := "u", LokiPassword := "p",
    ClusterName := "cluster1", Labels := [], Workers := 1, Port := 9090 }

/-! ### Helper lemmas -/

/-- `splitP` never returns the empty list: `strings.Split` always yields
at least one segment. -/
theorem splitP_ne_nil (p : Char → Bool) : ∀ cs : List Char, splitP p cs ≠ []
  | [] => by simp [splitP]
  | c :: rest => by
    unfold splitP
    cases h : splitP p rest with
    | nil => simp
    | cons h t => dsimp only; split <;> simp

/-- `goSplit` always returns at least one segment. -/
theorem goSplit_length_pos (sep : Char) (s : String) :
    1 ≤ (goSplit sep s).length := by
  unfold goSplit
  have h := splitP_ne_nil (fun c => c = sep) s.toList
  cases hs : splitP (fun c => c = sep) s.toList with
  | nil => exact absurd hs h
  | cons a t => simp

/-- No branch of `parseFileBody` produces the panic outcome; the only
panic in `parseFile` is the out-of-range key split. -/
theorem parseFileBody_ne_panicked (opts : Options) (fn : String)
    (fetch : FetchResult) (sink : SinkOracle) :
    (parseFileBody opts fn fetch sink).result ≠ PResult.panicked := by
  unfold parseFileBody
  cases fetch with
  | noSuchKey => simp
  | otherError msg => simp
  | content gzipValid lines readErr =>
    dsimp only
    split
    · simp
    · rcases hr : runScan sink [] 0 lines with ⟨entries, r⟩
      cases r with
      | error k => simp [hr]
      | ok u =>
        cases u
        cases readErr with
        | some m => simp [hr]
        | none => simp only [hr]; split <;> simp

/-! ### Claims -/

/-- C10: `parseFile` panics exactly when the key has fewer than two
'/'-separated segments — `parts[1]` is the only unguarded index, and
`strings.Split` always returns at least one segment, so `parts[0]` is
safe; with two or more segments no panic is possible. -/
theorem C10_parseFile_panic_iff (opts : Options) (fn : String)
    (fetch : FetchResult) (sink : SinkOracle) :
    ((parseFile opts fn fetch sink).result = PResult.panicked ↔
      (goSplit '/' fn).length < 2) ∧
    1 ≤ (goSplit '/' fn).length := by
  refine ⟨?_, goSplit_length_pos '/' fn⟩
  unfold parseFile
  split
  · simp_all
  · simp_all [parseFileBody_ne_panicked opts fn fetch sink]

/-- C9: reading the metrics endpoint leaves the pipeline state unchanged
and returns a `text/plain` body that is the single line
`cloudfront_logs_shipper_queue_length <n>` with `n` the number of
enqueued-but-not-yet-dequeued keys. -/
theorem C9_metrics_pure (s : PState) :
    (Metrics s).2 = s ∧
    (Metrics s).1.contentType = "text/plain; charset=utf-8" ∧
    (Metrics s).1.body =
      "cloudfront_logs_shipper_queue_length " ++ toString s.queue.length ++ "\n" :=
  ⟨rfl, rfl, rfl⟩

/-- `Stop` is idempotent as a state transformer. -/
theorem Stop_Stop (s : PState) : Stop (Stop s) = Stop s := by
  by_cases h : s.stopped
  · simp [Stop, h]
  · simp [Stop, h]

/-- C8: invoking `Stop` N ≥ 1 times equals invoking it once; from a
not-yet-stopped state the flag flips to true and the queue close count
rises by exactly one (one `close`, hence no double-close panic). -/
theorem C8_stop_idempotent (s : PState) (n : Nat) (hn : 1 ≤ n) :
    Stop^[n] s = Stop s ∧
    (s.stopped = false →
      (Stop^[n] s).stopped = true ∧ (Stop^[n] s).closed = true ∧
      (Stop^[n] s).closeCount = s.closeCount + 1) ∧
    (s.stopped = true → Stop^[n] s = s) := by
  obtain ⟨m, rfl⟩ : ∃ m, n = m + 1 := ⟨n - 1, by omega⟩
  have hiter : Stop^[m + 1] s = Stop s := by
    rw [Function.iterate_succ_apply]
    exact Function.iterate_fixed (Stop_Stop s) m
  refine ⟨hiter, ?_, ?_⟩
  · intro hs
    rw [hiter]
    unfold Stop
    simp [hs]
  · intro hs
    rw [hiter]
    unfold Stop
    simp [hs]

/-- Witness for C8 at a concrete initial state and N = 3. -/
theorem C8_stop_idempotent_witness :
    Stop^[3] ⟨false, ["k"], false, 0⟩ = Stop ⟨false, ["k"], false, 0⟩ ∧
    (Stop^[3] (⟨false, ["k"], false, 0⟩ : PState)).closeCount = 1 := by
  have h := C8_stop_idempotent ⟨false, ["k"], false, 0⟩ 3 (by decide)
  exact ⟨h.1, by simpa using (h.2.1 rfl).2.2⟩

/-- The per-object enqueue decision of `Scan`, on an indexed object: skip
a nil key, skip when the stop flag read true at that iteration, enqueue
otherwise. -/
def scanKeep (stopAt : Nat → Bool) (p : Nat × Option String) : Option String :=
  match p.2 with
  | none => none
  | some k => if stopAt p.1 then none else some k

/-- The enqueue loop equals filtering the indexed listing through
`scanKeep`. -/
theorem scanEnqueueAux_eq (stopAt : Nat → Bool) :
    ∀ (objs : List (Option String)) (i : Nat),
      scanEnqueueAux stopAt i objs = (objs.enumFrom i).filterMap (scanKeep stopAt)
  | [], _ => rfl
  | none :: rest, i => by
    simp [scanEnqueueAux, scanKeep, scanEnqueueAux_eq stopAt rest (i + 1)]
  | some k :: rest, i => by
    by_cases h : stopAt i
    · simp [scanEnqueueAux, scanKeep, h, scanEnqueueAux_eq stopAt rest (i + 1)]
    · simp [scanEnqueueAux, scanKeep, h, scanEnqueueAux_eq stopAt rest (i + 1)]

/-- C7 counterexample: a listed object whose key pointer is non-nil but
points at the empty string *is* enqueued (the code only checks `obj.Key ==
nil`), refuting "enqueues exactly those listed objects that have a
non-empty key". -/
theorem C7_counterexample :
    (Scan (fun _ => false) (Except.ok [some ""])).2 = [""] ∧
    ¬ (∀ k ∈ (Scan (fun _ => false) (Except.ok [some ""])).2, k ≠ "") := by
  constructor
  · rfl
  · intro h
    exact h "" (by decide) rfl

/-- C7 amended: each `Scan` invocation requests at most 100 objects from
the configured bucket; a listing error is returned unchanged with nothing
enqueued (no internal retry — the single listing outcome is the whole
call); otherwise exactly the listed objects with a present (non-nil) key
are enqueued, each only when the stop flag read false at its iteration. -/
theorem C7_amended (opts : Options) (stopAt : Nat → Bool) (e : String)
    (objs : List (Option String)) :
    (scanInput opts).maxKeys = 100 ∧
    (scanInput opts).bucket = opts.BucketName ∧
    Scan stopAt (Except.error e) = (Except.error e, []) ∧
    Scan stopAt (Except.ok objs) =
      (Except.ok (), objs.enum.filterMap (scanKeep stopAt)) := by
  refine ⟨rfl, rfl, rfl, ?_⟩
  simp [Scan, scanEnqueue, scanEnqueueAux_eq stopAt objs 0, List.enum]

/-! ### Association-list map lemmas -/

/-- Folding prepend-inserts over a list reverses it onto the accumulator. -/
theorem foldl_cons_eq : ∀ (l acc : List (String × String)),
    l.foldl (fun m kv => kv :: m) acc = l.reverse ++ acc
  | [], acc => rfl
  | kv :: rest, acc => by
    simp [List.foldl_cons, foldl_cons_eq rest (kv :: acc)]

/-- `buildEntry` is the reversed zip of names and tokens. -/
theorem buildEntry_eq (names fields : List String) :
    buildEntry names fields = (names.zip fields).reverse := by
  simp [buildEntry, foldl_cons_eq]

/-- Lookup across an append tries the left list first. -/
theorem entryLookup_append : ∀ (l l' : LogEntry) (k : String),
    entryLookup (l ++ l') k =
      (match entryLookup l k with
       | some v => some v
       | none => entryLookup l' k)
  | [], _, _ => rfl
  | (a, v) :: rest, l', k => by
    by_cases h : a = k
    · simp [entryLookup, h]
    · simp [entryLookup, h, entryLookup_append rest l' k]

/-- Lookup misses exactly when the key is absent. -/
theorem entryLookup_eq_none : ∀ (l : LogEntry) (k : String),
    entryLookup l k = none ↔ k ∉ entryKeys l
  | [], k => by simp [entryLookup, entryKeys]
  | (a, v) :: rest, k => by
    by_cases h : a = k
    · simp [entryLookup, entryKeys, h]
    · simp [entryLookup, entryKeys, h, entryLookup_eq_none rest k, Ne.symm h]

/-- With pairwise-distinct keys, reversing an association list does not
change lookups. -/
theorem entryLookup_reverse : ∀ (l : LogEntry) (k : String),
    (entryKeys l).Nodup → entryLookup l.reverse k = entryLookup l k
  | [], k, _ => rfl
  | (a, v) :: rest, k, hnd => by
    have hnd' : (a :: entryKeys rest).Nodup := hnd
    have hna : a ∉ entryKeys rest := (List.nodup_cons.mp hnd').1
    have hrest : (entryKeys rest).Nodup := (List.nodup_cons.mp hnd').2
    have ih := entryLookup_reverse rest k hrest
    by_cases h : a = k
    · subst h
      have hn : entryLookup rest a = none := (entryLookup_eq_none rest a).mpr hna
      have hn' : entryLookup rest.reverse a = none := ih.trans hn
      simp [List.reverse_cons, entryLookup_append, hn', entryLookup, hn]
    · simp only [List.reverse_cons, entryLookup_append, ih]
      cases hc : entryLookup rest k with
      | some v' => simp [entryLookup, h, hc]
      | none => simp [entryLookup, h, hc]

/-- Keys of a zip are the names when the token list is at least as long. -/
theorem entryKeys_zip : ∀ (names fields : List String),
    fields.length = names.length →
    entryKeys (names.zip fields) = names
  | [], _, _ => rfl
  | n :: ns, f :: fs, h => by
    simp [entryKeys, List.zip_cons_cons]
    exact entryKeys_zip ns fs (by simpa using h)

/-- In the zip of distinct names with tokens, looking up the i-th name
yields the i-th token. -/
theorem entryLookup_zip_getD : ∀ (names fields : List String),
    names.Nodup → fields.length = names.length →
    ∀ i, i < names.length →
      entryLookup (names.zip fields) (names.getD i "") = some (fields.getD i "")
  | [], _, _, _, i, hi => by simp at hi
  | n :: ns, f :: fs, hnd, hl, 0, _ => by simp [entryLookup]
  | n :: ns, f :: fs, hnd, hl, i + 1, hi => by
    have hi' : i < ns.length := by simpa using hi
    have hmem : ns.getD i "" ∈ ns := by
      rw [List.getD_eq_getElem ns "" hi']
      exact List.getElem_mem hi'
    have hne : n ≠ ns.getD i "" := by
      intro h
      exact (List.nodup_cons.mp hnd).1 (h ▸ hmem)
    simp only [List.zip_cons_cons, List.getD_cons_succ, entryLookup, if_neg hne]
    exact entryLookup_zip_getD ns fs (List.nodup_cons.mp hnd).2 (by simpa using hl) i hi'

/-- Looking up the i-th header name in a built entry returns the i-th
token, provided the header names are pairwise distinct. -/
theorem buildEntry_lookup (names fields : List String)
    (hnd : names.Nodup) (hl : fields.length = names.length)
    (i : Nat) (hi : i < names.length) :
    entryLookup (buildEntry names fields) (names.getD i "") =
      some (fields.getD i "") := by
  rw [buildEntry_eq]
  rw [entryLookup_reverse _ _ (by rw [entryKeys_zip names fields hl]; exact hnd)]
  exact entryLookup_zip_getD names fields hnd hl i hi

/-- The key set of a built entry is exactly the header names. -/
theorem buildEntry_keys (names fields : List String)
    (hl : fields.length = names.length) (k : String) :
    k ∈ entryKeys (buildEntry names fields) ↔ k ∈ names := by
  rw [buildEntry_eq]
  have : entryKeys (names.zip fields).reverse = (entryKeys (names.zip fields)).reverse := by
    simp [entryKeys]
  rw [this, entryKeys_zip names fields hl, List.mem_reverse]

/-! ### Scanner-loop lemmas -/

/-- The record a data line decodes to under its governing header. -/
def entryOf (p : List String × String) : LogEntry :=
  buildEntry p.1 (goFields p.2)

/-- The wrapped error message `parseFile` returns for a mismatching data
line. -/
def mismatchMsg (p : List String × String) : String :=
  "error parsing data line: " ++
    ("field count mismatch: expected " ++ toString p.1.length ++
      ", got " ++ toString (goFields p.2).length)

/-- When every data line matches its header and no sink `Add` fails, the
scanner loop adds exactly one record per data line, in order, and
finishes cleanly. -/
theorem runScan_allOK (sink : SinkOracle) (hadd : ∀ m, sink.addFails m = false) :
    ∀ (lines : List String) (hdr : List String) (n : Nat),
      (∀ p ∈ dataLinesWith hdr lines, lineOKb p = true) →
      runScan sink hdr n lines =
        ((dataLinesWith hdr lines).map entryOf, Except.ok ())
  | [], hdr, n, _ => rfl
  | line :: rest, hdr, n, hok => by
    by_cases h1 : goHasPrefix line "#Fields:"
    · have hok' : ∀ p ∈ dataLinesWith ((goFields line).drop 1) rest, lineOKb p = true := by
        intro p hp
        exact hok p (by simpa [dataLinesWith, h1] using hp)
      simpa [runScan, dataLinesWith, h1] using
        runScan_allOK sink hadd rest ((goFields line).drop 1) n hok'
    · by_cases h2 : goHasPrefix line "#" || hdr.isEmpty
      · have hok' : ∀ p ∈ dataLinesWith hdr rest, lineOKb p = true := by
          intro p hp
          exact hok p (by simpa [dataLinesWith, h1, h2] using hp)
        simp [runScan, dataLinesWith, h1, h2,
          runScan_allOK sink hadd rest hdr n hok']
      · have hhead : lineOKb (hdr, line) = true :=
          hok (hdr, line) (by simp [dataLinesWith, h1, h2])
        have hlen : (goFields line).length = hdr.length := by
          simpa [lineOKb] using hhead
        have hok' : ∀ p ∈ dataLinesWith hdr rest, lineOKb p = true := by
          intro p hp
          exact hok p (by simp [dataLinesWith, h1, h2, hp])
        simp [runScan, dataLinesWith, h1, h2, parseDataLine, hlen, hadd n,
          runScan_allOK sink hadd rest hdr (n + 1) hok', entryOf]

/-- When the first k data lines match their headers but the (k+1)-st does
not and no sink `Add` fails first, the scanner loop adds exactly the
records of the first k data lines and aborts with the parse error of the
mismatching line. -/
theorem runScan_firstBad (sink : SinkOracle) (hadd : ∀ m, sink.addFails m = false) :
    ∀ (lines : List String) (hdr : List String) (n : Nat) (k : Nat),
      (∀ p ∈ (dataLinesWith hdr lines).take k, lineOKb p = true) →
      k < (dataLinesWith hdr lines).length →
      lineOKb ((dataLinesWith hdr lines).getD k ([], "")) = false →
      runScan sink hdr n lines =
        (((dataLinesWith hdr lines).take k).map entryOf,
         Except.error (PErrorKind.parseLine
           (mismatchMsg ((dataLinesWith hdr lines).getD k ([], "")))))
  | [], hdr, n, k, _, hk, _ => by simp [dataLinesWith] at hk
  | line :: rest, hdr, n, k, hok, hk, hbad => by
    by_cases h1 : goHasPrefix line "#Fields:"
    · have := runScan_firstBad sink hadd rest ((goFields line).drop 1) n k
        (by intro p hp; exact hok p (by simpa [dataLinesWith, h1] using hp))
        (by simpa [dataLinesWith, h1] using hk)
        (by simpa [dataLinesWith, h1] using hbad)
      simpa [runScan, dataLinesWith, h1] using this
    · by_cases h2 : goHasPrefix line "#" || hdr.isEmpty
      · have := runScan_firstBad sink hadd rest hdr n k
          (by intro p hp; exact hok p (by simpa [dataLinesWith, h1, h2] using hp))
          (by simpa [dataLinesWith, h1, h2] using hk)
          (by simpa [dataLinesWith, h1, h2] using hbad)
        simpa [runScan, dataLinesWith, h1, h2] using this
      · cases k with
        | zero =>
          have hbad0 : lineOKb (hdr, line) = false := by
            simpa [dataLinesWith, h1, h2] using hbad
          have hlen : (goFields line).length ≠ hdr.length := by
            simpa [lineOKb] using hbad0
          simp [runScan, dataLinesWith, h1, h2, parseDataLine, hlen, mismatchMsg]
        | succ k' =>
          have hhead : lineOKb (hdr, line) = true := by
            have : (hdr, line) ∈ ((hdr, line) :: dataLinesWith hdr rest).take (k' + 1) := by
              simp
            refine hok (hdr, line) ?_
            simp [dataLinesWith, h1, h2]
          have hlen : (goFields line).length = hdr.length := by
            simpa [lineOKb] using hhead
          have hok' : ∀ p ∈ (dataLinesWith hdr rest).take k', lineOKb p = true := by
            intro p hp
            refine hok p ?_
            have : p ∈ ((hdr, line) :: (dataLinesWith hdr rest).take k') := by
              exact List.mem_cons_of_mem _ hp
            simpa [dataLinesWith, h1, h2, List.take_cons] using this
          have := runScan_firstBad sink hadd rest hdr (n + 1) k' hok'
            (by have := hk; simpa [dataLinesWith, h1, h2] using this)
            (by have := hbad; simpa [dataLinesWith, h1, h2] using this)
          simp [runScan, dataLinesWith, h1, h2, parseDataLine, hlen, hadd n,
            this, List.take_cons, entryOf]

/-- C1 counterexample: the file `#Fields: a a` / `x y` is well formed
(header precedes the single data line, token count 2 equals header length
2), yet because a Go map insert overwrites, looking up header name 0
(`"a"`) in the decoded record yields token 1 (`"y"`), not token 0
(`"x"`): the record does not map the i-th header name to the i-th token. -/
theorem C1_counterexample :
    wellFormedFile ["#Fields: a a", "x y"] ∧
    (parseFile opts0 "teamA/dist123/log.gz"
        (FetchResult.content true ["#Fields: a a", "x y"] none) perfectSink).added =
      [buildEntry ["a", "a"] ["x", "y"]] ∧
    ¬ entryLookup (buildEntry ["a", "a"] ["x", "y"]) (["a", "a"].getD 0 "") =
        some (["x", "y"].getD 0 "") := by
  refine ⟨by decide, by decide, by decide⟩

/-- C1 amended: for every well-formed file processed through a working
sink, the decoder yields exactly one record per data line, in order, and
ships as many lines as there are data lines; each record's keys are
exactly the governing header's field names, and — provided those names
are pairwise distinct (with duplicates, Go's map overwrite keeps only the
last duplicate's token) — the i-th header name is mapped to the i-th
token of the line. -/
theorem C1_amended (opts : Options) (fn : String) (lines : List String)
    (sink : SinkOracle)
    (hseg : 2 ≤ (goSplit '/' fn).length)
    (hadd : ∀ m, sink.addFails m = false)
    (hflush : sink.flushFails = false)
    (hwf : wellFormedFile lines) :
    parseFile opts fn (FetchResult.content true lines none) sink =
      { result := PResult.ok, batchLabels := some (labelsForKey opts fn),
        added := (dataLinesWith [] lines).map entryOf, flushed := true } ∧
    (parseFile opts fn (FetchResult.content true lines none) sink).added.length =
      (dataLinesWith [] lines).length ∧
    ∀ p ∈ dataLinesWith [] lines,
      (∀ k, k ∈ entryKeys (entryOf p) ↔ k ∈ p.1) ∧
      (p.1.Nodup → ∀ i, i < p.1.length →
        entryLookup (entryOf p) (p.1.getD i "") =
          some ((goFields p.2).getD i "")) := by
  have hrun := runScan_allOK sink hadd lines [] 0 hwf
  have hmain : parseFile opts fn (FetchResult.content true lines none) sink =
      { result := PResult.ok, batchLabels := some (labelsForKey opts fn),
        added := (dataLinesWith [] lines).map entryOf, flushed := true } := by
    unfold parseFile
    rw [if_neg (by omega)]
    simp [parseFileBody, hrun, hflush]
  refine ⟨hmain, by simp [hmain], ?_⟩
  intro p hp
  have hlen : (goFields p.2).length = p.1.length := by
    simpa [lineOKb] using hwf p hp
  exact ⟨buildEntry_keys p.1 (goFields p.2) hlen,
    fun hnd i hi => buildEntry_lookup p.1 (goFields p.2) hnd hlen i hi⟩

/-- Witness for C1 amended: the spec's end-to-end scenario A file. -/
theorem C1_amended_witness :
    wellFormedFile ["#Fields: date time c-ip", "2024-01-01 00:00:00 1.2.3.4"] ∧
    parseFile opts0 "teamA/dist123/2024010100.log.gz"
        (FetchResult.content true
          ["#Fields: date time c-ip", "2024-01-01 00:00:00 1.2.3.4"] none)
        perfectSink =
      { result := PResult.ok,
        batchLabels := some (labelsForKey opts0 "teamA/dist123/2024010100.log.gz"),
        added := (dataLinesWith []
          ["#Fields: date time c-ip", "2024-01-01 00:00:00 1.2.3.4"]).map entryOf,
        flushed := true } :=
  ⟨by decide,
    (C1_amended opts0 "teamA/dist123/2024010100.log.gz"
      ["#Fields: date time c-ip", "2024-01-01 00:00:00 1.2.3.4"] perfectSink
      (by decide) (fun m => rfl) rfl (by decide)).1⟩

/-- C2: when the first k data lines match their headers and the (k+1)-st
data line's token count differs from the header length in effect there,
`parseFile` returns the parse error of that line, only the records of the
earlier data lines were added (nothing after the mismatch), the batch is
never flushed, and a worker that dequeues this key issues no delete
request and stops with that error. -/
theorem C2_mismatch_aborts (opts : Options) (fn : String) (lines : List String)
    (sink : SinkOracle) (k : Nat)
    (hseg : 2 ≤ (goSplit '/' fn).length)
    (hadd : ∀ m, sink.addFails m = false)
    (hok : ∀ p ∈ (dataLinesWith [] lines).take k, lineOKb p = true)
    (hk : k < (dataLinesWith [] lines).length)
    (hbad : lineOKb ((dataLinesWith [] lines).getD k ([], "")) = false) :
    parseFile opts fn (FetchResult.content true lines none) sink =
      { result := PResult.failed (PErrorKind.parseLine
          (mismatchMsg ((dataLinesWith [] lines).getD k ([], "")))),
        batchLabels := some (labelsForKey opts fn),
        added := ((dataLinesWith [] lines).take k).map entryOf,
        flushed := false } ∧
    ∀ env : Env, env.fetchOf fn = FetchResult.content true lines none →
      env.sinkOf fn = sink →
      Worker opts env [fn] =
        ([], WResult.errored (PErrorKind.parseLine
          (mismatchMsg ((dataLinesWith [] lines).getD k ([], ""))))) := by
  have hrun := runScan_firstBad sink hadd lines [] 0 k hok hk hbad
  have hmain : parseFile opts fn (FetchResult.content true lines none) sink =
      { result := PResult.failed (PErrorKind.parseLine
          (mismatchMsg ((dataLinesWith [] lines).getD k ([], "")))),
        batchLabels := some (labelsForKey opts fn),
        added := ((dataLinesWith [] lines).take k).map entryOf,
        flushed := false } := by
    unfold parseFile
    rw [if_neg (by omega)]
    simp [parseFileBody, hrun]
  refine ⟨hmain, ?_⟩
  intro env hf hs
  simp [Worker, hf, hs, hmain]

/-- Witness for C2: the spec's end-to-end scenario B — a data line with
two tokens under a three-name header; the file aborts with the parse
error and the worker deletes nothing. -/
theorem C2_mismatch_aborts_witness :
    lineOKb ((dataLinesWith []
      ["#Fields: date time c-ip", "2024-01-01 00:00:00"]).getD 0 ([], "")) = false ∧
    Worker opts0
      ⟨fun _ => FetchResult.content true
          ["#Fields: date time c-ip", "2024-01-01 00:00:00"] none,
        fun _ => perfectSink, fun _ => false⟩
      ["teamA/dist123/b.gz"] =
      ([], WResult.errored (PErrorKind.parseLine
        (mismatchMsg ((dataLinesWith []
          ["#Fields: date time c-ip", "2024-01-01 00:00:00"]).getD 0 ([], ""))))) :=
  ⟨by decide,
    (C2_mismatch_aborts opts0 "teamA/dist123/b.gz"
      ["#Fields: date time c-ip", "2024-01-01 00:00:00"] perfectSink 0
      (by decide) (fun m => rfl) (by decide) (by decide) (by decide)).2
      ⟨fun _ => FetchResult.content true
          ["#Fields: date time c-ip", "2024-01-01 00:00:00"] none,
        fun _ => perfectSink, fun _ => false⟩ rfl rfl⟩

/-- The delete requests a worker issues are exactly the longest prefix of
its queue on which `parseFile` succeeds. -/
theorem Worker_fst (opts : Options) (env : Env) :
    ∀ keys : List String,
      (Worker opts env keys).1.map Prod.fst = keys.takeWhile (shipOK opts env)
  | [] => rfl
  | key :: rest => by
    cases hres : (parseFile opts key (env.fetchOf key) (env.sinkOf key)).result with
    | ok =>
      simp [Worker, hres, List.takeWhile_cons, shipOK, Worker_fst opts env rest]
    | failed e => simp [Worker, hres, List.takeWhile_cons, shipOK]
    | panicked => simp [Worker, hres, List.takeWhile_cons, shipOK]

/-- Whether deletes fail has no effect on which keys the worker deletes
or on the loop's result — a failed delete is only logged. -/
theorem Worker_deleteFails_irrel (opts : Options) (fo : String → FetchResult)
    (so : String → SinkOracle) (df df' : String → Bool) :
    ∀ keys : List String,
      (Worker opts ⟨fo, so, df⟩ keys).1.map Prod.fst =
        (Worker opts ⟨fo, so, df'⟩ keys).1.map Prod.fst ∧
      (Worker opts ⟨fo, so, df⟩ keys).2 = (Worker opts ⟨fo, so, df'⟩ keys).2
  | [] => ⟨rfl, rfl⟩
  | key :: rest => by
    cases hres : (parseFile opts key (fo key) (so key)).result with
    | ok =>
      have ih := Worker_deleteFails_irrel opts fo so df df' rest
      simp [Worker, hres, ih.1, ih.2]
    | failed e => simp [Worker, hres]
    | panicked => simp [Worker, hres]

/-- After an all-successful prefix, a key whose `parseFile` fails makes
the worker return that error at once: the failing key and everything
after it are never deleted. -/
theorem Worker_err (opts : Options) (env : Env) :
    ∀ (pre : List String) (key : String) (post : List String) (e : PErrorKind),
      (∀ j ∈ pre, shipOK opts env j = true) →
      (parseFile opts key (env.fetchOf key) (env.sinkOf key)).result =
        PResult.failed e →
      (Worker opts env (pre ++ key :: post)).2 = WResult.errored e ∧
      (Worker opts env (pre ++ key :: post)).1.map Prod.fst = pre
  | [], key, post, e, _, hfail => by simp [Worker, hfail]
  | j :: rest, key, post, e, hpre, hfail => by
    have hj : (parseFile opts j (env.fetchOf j) (env.sinkOf j)).result = PResult.ok := by
      have := hpre j (by simp)
      simpa [shipOK] using this
    have ih := Worker_err opts env rest key post e
      (fun j' hj' => hpre j' (by simp [hj'])) hfail
    simp [Worker, hj, ih.1, ih.2]

/-- C3: the worker issues a delete request exactly for the longest prefix
of dequeued keys on which `parseFile` succeeds; its behaviour (which keys
are deleted, how the loop ends) is independent of whether deletes fail —
a failed delete only changes the logged outcome, each key is processed at
most once; and on the first `parseFile` error the worker returns that
error, deleting neither the failing key nor any later one. -/
theorem C3_worker_delete_policy (opts : Options) (fo : String → FetchResult)
    (so : String → SinkOracle) (df df' : String → Bool) (keys : List String) :
    (Worker opts ⟨fo, so, df⟩ keys).1.map Prod.fst =
      keys.takeWhile (shipOK opts ⟨fo, so, df⟩) ∧
    ((Worker opts ⟨fo, so, df⟩ keys).1.map Prod.fst =
      (Worker opts ⟨fo, so, df'⟩ keys).1.map Prod.fst ∧
     (Worker opts ⟨fo, so, df⟩ keys).2 = (Worker opts ⟨fo, so, df'⟩ keys).2) ∧
    ∀ (pre : List String) (key : String) (post : List String) (e : PErrorKind),
      keys = pre ++ key :: post →
      (∀ j ∈ pre, shipOK opts ⟨fo, so, df⟩ j = true) →
      (parseFile opts key (fo key) (so key)).result = PResult.failed e →
      (Worker opts ⟨fo, so, df⟩ keys).2 = WResult.errored e ∧
      (Worker opts ⟨fo, so, df⟩ keys).1.map Prod.fst = pre := by
  refine ⟨Worker_fst opts ⟨fo, so, df⟩ keys,
    Worker_deleteFails_irrel opts fo so df df' keys, ?_⟩
  intro pre key post e hkeys hpre hfail
  subst hkeys
  exact Worker_err opts ⟨fo, so, df⟩ pre key post e hpre hfail

/-- Witness for C3: a two-key queue whose first key succeeds (benign
missing object) and whose second fetch fails; deletes fail throughout. -/
theorem C3_worker_delete_policy_witness :
    (parseFile opts0 "bad/2/y" (FetchResult.otherError "boom") perfectSink).result =
      PResult.failed (PErrorKind.fetch "failed to get object bad/2/y: boom") ∧
    (Worker opts0
        ⟨fun k => if k = "a/1/x" then FetchResult.noSuchKey
          else FetchResult.otherError "boom",
          fun _ => perfectSink, fun _ => true⟩
        ["a/1/x", "bad/2/y"]).2 =
      WResult.errored (PErrorKind.fetch "failed to get object bad/2/y: boom") ∧
    (Worker opts0
        ⟨fun k => if k = "a/1/x" then FetchResult.noSuchKey
          else FetchResult.otherError "boom",
          fun _ => perfectSink, fun _ => true⟩
        ["a/1/x", "bad/2/y"]).1.map Prod.fst = ["a/1/x"] := by
  have h := (C3_worker_delete_policy opts0
    (fun k => if k = "a/1/x" then FetchResult.noSuchKey
      else FetchResult.otherError "boom")
    (fun _ => perfectSink) (fun _ => true) (fun _ => true)
    ["a/1/x", "bad/2/y"]).2.2 ["a/1/x"] "bad/2/y" []
    (PErrorKind.fetch "failed to get object bad/2/y: boom")
    rfl (by decide) (by decide)
  exact ⟨by decide, h.1, h.2⟩

/-- C4 counterexample: on a `NoSuchKey` fetch the call still *opens* a
Loki batch — `loki.NewBatch` runs before `GetObject` — so "no batch is
created" fails, even though the batch stays empty, nothing is flushed,
and success is returned. -/
theorem C4_counterexample :
    (parseFile opts0 "a/b" FetchResult.noSuchKey perfectSink).batchLabels ≠ none ∧
    (parseFile opts0 "a/b" FetchResult.noSuchKey perfectSink).result = PResult.ok ∧
    (parseFile opts0 "a/b" FetchResult.noSuchKey perfectSink).added = [] ∧
    (parseFile opts0 "a/b" FetchResult.noSuchKey perfectSink).flushed = false := by
  refine ⟨by decide, by decide, by decide, by decide⟩

/-- C4 amended: a fetch that fails because the object no longer exists
makes `parseFile` return success with nothing shipped — a batch is opened
(before the fetch, with the file's labels) but no line is ever added to
it and it is not flushed, and no error is surfaced; any other fetch error
makes `parseFile` return that error wrapped. -/
theorem C4_noSuchKey_benign (opts : Options) (fn : String) (sink : SinkOracle)
    (hseg : 2 ≤ (goSplit '/' fn).length) :
    parseFile opts fn FetchResult.noSuchKey sink =
      { result := PResult.ok, batchLabels := some (labelsForKey opts fn),
        added := [], flushed := false } ∧
    ∀ msg, parseFile opts fn (FetchResult.otherError msg) sink =
      { result := PResult.failed (PErrorKind.fetch
          ("failed to get object " ++ fn ++ ": " ++ msg)),
        batchLabels := some (labelsForKey opts fn),
        added := [], flushed := false } := by
  constructor
  · unfold parseFile
    rw [if_neg (by omega)]
    simp [parseFileBody]
  · intro msg
    unfold parseFile
    rw [if_neg (by omega)]
    simp [parseFileBody]

/-- Witness for C4 amended at a concrete two-segment key. -/
theorem C4_noSuchKey_benign_witness :
    2 ≤ (goSplit '/' "a/b").length ∧
    parseFile opts0 "a/b" FetchResult.noSuchKey perfectSink =
      { result := PResult.ok, batchLabels := some (labelsForKey opts0 "a/b"),
        added := [], flushed := false } :=
  ⟨by decide, (C4_noSuchKey_benign opts0 "a/b" perfectSink (by decide)).1⟩

/-- C5: one step of the scanner loop — a `#Fields:` directive replaces
the header with the tokens after the directive token and produces neither
record nor error; any other `#`-line, and any line while the header is
still empty, is skipped; with an empty header no line is ever parsed as
data (the step is a directive update or a skip). -/
theorem C5_header_gating (sink : SinkOracle) (hdr : List String) (n : Nat)
    (line : String) (rest : List String) :
    (goHasPrefix line "#Fields:" = true →
      runScan sink hdr n (line :: rest) =
        runScan sink ((goFields line).drop 1) n rest ∧
      ∀ ts, goFields line = "#Fields:" :: ts →
        runScan sink hdr n (line :: rest) = runScan sink ts n rest) ∧
    (goHasPrefix line "#Fields:" = false →
      goHasPrefix line "#" = true ∨ hdr = [] →
      runScan sink hdr n (line :: rest) = runScan sink hdr n rest) ∧
    (hdr = [] →
      runScan sink [] n (line :: rest) =
        runScan sink
          (if goHasPrefix line "#Fields:" then (goFields line).drop 1 else [])
          n rest) := by
  refine ⟨?_, ?_, ?_⟩
  · intro h1
    refine ⟨by simp [runScan, h1], ?_⟩
    intro ts hts
    simp [runScan, h1, hts]
  · intro h1 h2
    cases h2 with
    | inl h => simp [runScan, h1, h]
    | inr h => subst h; simp [runScan, h1]
  · intro h
    subst h
    by_cases h1 : goHasPrefix line "#Fields:"
    · simp [runScan, h1]
    · simp [runScan, h1]

/-- Witness for C5 at a concrete directive line. -/
theorem C5_header_gating_witness :
    goFields "#Fields: a b" = "#Fields:" :: ["a", "b"] ∧
    runScan perfectSink ["h"] 0 ["#Fields: a b", "1 2"] =
      runScan perfectSink ["a", "b"] 0 ["1 2"] :=
  ⟨by decide,
    ((C5_header_gating perfectSink ["h"] 0 "#Fields: a b" ["1 2"]).1
      (by decide)).2 ["a", "b"] (by decide)⟩

/-- The dynamic label map the spec describes for a key
`<namespace>/<sourceId>/<rest>`: {namespace, cloudfront, cluster,
index = "<cluster>-<namespace>"}.  Stated from the claim's words, to be
compared with the lookup behaviour of the code's `buildLabels`. -/
def specDynamicLabels (opts : Options) (ns cf : String) (k : String) : Option String :=
  if k = "namespace" then some ns
  else if k = "cloudfront" then some cf
  else if k = "cluster" then some opts.ClusterName
  else if k = "index" then some (opts.ClusterName ++ "-" ++ ns)
  else none

/-- Looking up the four dynamic inserts of `buildLabels` agrees with the
spec's dynamic label map. -/
theorem baseLabels_lookup (opts : Options) (ns cf : String) (k : String) :
    entryLookup
      (("index", opts.ClusterName ++ "-" ++ ns) ::
       ("cluster", opts.ClusterName) ::
       ("cloudfront", cf) ::
       ("namespace", ns) :: []) k = specDynamicLabels opts ns cf k := by
  by_cases h1 : k = "namespace"
  · subst h1; simp [entryLookup, specDynamicLabels]
  · by_cases h2 : k = "cloudfront"
    · subst h2; simp [entryLookup, specDynamicLabels]
    · by_cases h3 : k = "cluster"
      · subst h3; simp [entryLookup, specDynamicLabels]
      · by_cases h4 : k = "index"
        · subst h4; simp [entryLookup, specDynamicLabels]
        · simp [entryLookup, specDynamicLabels, h1, h2, h3, h4,
            Ne.symm h1, Ne.symm h2, Ne.symm h3, Ne.symm h4]

/-- C6: for a key whose first two '/'-segments are `ns` and `cf`, and any
static label configuration (a Go map, so its keys are pairwise distinct),
every lookup in the labels built for the file returns the static
configured value when the key is configured, and the dynamic
{namespace, cloudfront, cluster, index} value otherwise: static labels
override same-named dynamic ones. -/
theorem C6_label_composition (opts : Options) (fn ns cf : String)
    (rest : List String)
    (hsplit : goSplit '/' fn = ns :: cf :: rest)
    (hnd : (opts.Labels.map Prod.fst).Nodup) :
    ∀ k, entryLookup (labelsForKey opts fn) k =
      match entryLookup opts.Labels k with
      | some v => some v
      | none => specDynamicLabels opts ns cf k := by
  intro k
  have hkey : labelsForKey opts fn = buildLabels opts ns cf := by
    unfold labelsForKey
    rw [hsplit]
    rfl
  rw [hkey]
  unfold buildLabels
  rw [foldl_cons_eq, entryLookup_append,
    entryLookup_reverse opts.Labels k (by simpa [entryKeys] using hnd)]
  cases hc : entryLookup opts.Labels k with
  | some v => simp
  | none => simp [baseLabels_lookup opts ns cf k]

/-- Witness for C6: a configured static `cluster` label overrides the
dynamic one, while the dynamic `namespace` label survives. -/
theorem C6_label_composition_witness :
    goSplit '/' "teamA/dist123/obj.gz" = "teamA" :: "dist123" :: ["obj.gz"] ∧
    entryLookup (labelsForKey
      { opts0 with Labels := [("cluster", "override")] }
      "teamA/dist123/obj.gz") "cluster" = some "override" ∧
    entryLookup (labelsForKey
      { opts0 with Labels := [("cluster", "override")] }
      "teamA/dist123/obj.gz") "namespace" = some "teamA" :=
  ⟨by decide,
    (C6_label_composition { opts0 with Labels := [("cluster", "override")] }
      "teamA/dist123/obj.gz" "teamA" "dist123" ["obj.gz"]
      (by decide) (by decide) "cluster").trans (by decide),
    (C6_label_composition { opts0 with Labels := [("cluster", "override")] }
      "teamA/dist123/obj.gz" "teamA" "dist123" ["obj.gz"]
      (by decide) (by decide) "namespace").trans (by decide)⟩

end CFShip
